import Mathlib

/-!
Verification of the Contentful delivery-API client
(`src/lib/create-contentful-api.ts`) and of the link-resolution engine it
delegates to. The API layer (error handler, base-URL selection, the `get`
helper, `getEntry`, `getEntries`, `getAsset`, `getAssets`, `parseEntries`,
`sync`/`switchToEnvironment`) is embedded directly from the source file.
The resolver `resolveCircular` lives in `src/utils/resolve-circular`, whose
source is not part of this repository snapshot; it is modelled from the
specification (definitions marked `Modelled from the spec:`).
-/

namespace Contentful

/-- A JavaScript value, as needed to model the error objects and payloads the
client manipulates: `null`, `undefined`, booleans, numbers, strings and plain
objects (association lists of named fields). -/
inductive JsValue where
  | null
  | undefined
  | bool (b : Bool)
  | num (n : Int)
  | str (s : String)
  | obj (fields : List (String × JsValue))

/-- Field lookup in an object's field list: the first binding of the name
wins, a missing name yields `undefined`. -/
def findField : List (String × JsValue) → String → JsValue
  | [], _ => .undefined
  | (k, v) :: rest, name => if k = name then v else findField rest name

/-- JavaScript property access `v.name`: defined on objects, `undefined`
on every other value. -/
def JsValue.getField : JsValue → String → JsValue
  | .obj fs, name => findField fs name
  | _, _ => .undefined

/-- JavaScript truthiness: `null`, `undefined`, `false`, `0` and the empty
string are falsy, every other value (including every object) is truthy. -/
def JsValue.truthy : JsValue → Bool
  | .null => false
  | .undefined => false
  | .bool b => b
  | .num n => n != 0
  | .str s => s != ""
  | .obj _ => true

/-- The immutable client configuration, as produced by `getGlobalOptions`:
link-resolution options, the environment and space identifiers, and the two
optional base URLs. -/
structure GlobalOptions where
  resolveLinks : Bool
  removeUnresolved : Bool
  environment : String
  space : String
  spaceBaseUrl : Option String
  environmentBaseUrl : Option String

/-- The `NotFoundError` object built by `notFoundError(id)` in the source:
message `The resource could not be found.`, `sys = { type: Error, id:
NotFound }` and `details` carrying the entity type, the requested id and the
client's environment and space identifiers. -/
def notFoundError (g : GlobalOptions) (id : String) : JsValue :=
  .obj [("message", .str "The resource could not be found."),
        ("sys", .obj [("type", .str "Error"), ("id", .str "NotFound")]),
        ("details", .obj [("type", .str "Entry"), ("id", .str id),
                          ("environment", .str g.environment),
                          ("space", .str g.space)])]

/-- The `errorHandler` function of the source: rethrows `error.data` when it
is truthy, otherwise `error.response.data` when `error.response` and
`error.response.data` are truthy, otherwise the error itself, unchanged.
The returned value models the value thrown to the caller. -/
def errorHandler (error : JsValue) : JsValue :=
  if (error.getField "data").truthy then error.getField "data"
  else if (error.getField "response").truthy &&
          ((error.getField "response").getField "data").truthy then
    (error.getField "response").getField "data"
  else error

/-- The `context` discriminator of the internal `get` helper. -/
inductive UrlContext where
  | space
  | environment
deriving DecidableEq

/-- The string name of a context, as spliced into the configuration error
message. -/
def contextName : UrlContext → String
  | .space => "space"
  | .environment => "environment"

/-- Base-URL selection of `get`: `spaceBaseUrl` for the space context and
`environmentBaseUrl` for the environment context. -/
def baseUrlFor (g : GlobalOptions) : UrlContext → Option String
  | .space => g.spaceBaseUrl
  | .environment => g.environmentBaseUrl

/-- JavaScript falsiness of an optional string-valued configuration entry:
absent (`undefined`) or the empty string. This is the `!baseUrl` test of the
source. -/
def optFalsy : Option String → Bool
  | none => true
  | some s => s == ""

/-- The `Error` object thrown by `get` when the base URL for the requested
context is missing. -/
def configurationError (c : UrlContext) : JsValue :=
  .obj [("message", .str ("Please define baseUrl for " ++ contextName c))]

/-- JavaScript `String.prototype.endsWith`, modelled over the character
list of the string so that concrete instances evaluate. -/
def strEndsWith (s post : String) : Bool := post.data.isSuffixOf s.data

/-- An HTTP response as returned by the transport collaborator; `get`
returns its `data` member. -/
structure HttpResponse (A : Type) where
  data : A

/-- The argument record of the internal `get` helper. -/
structure GetConfig where
  context : UrlContext
  path : String

/-- The internal `get` helper: select the base URL for the context, throw a
configuration error when it is falsy, otherwise normalise the trailing
slash, perform the transport request and return the response body,
channelling transport failures through `errorHandler`. The second component
of the result is the trace of URLs actually handed to the transport. -/
def get (A : Type) (g : GlobalOptions) (http : String → Except JsValue (HttpResponse A))
    (cfg : GetConfig) : Except JsValue A × List String :=
  let baseUrl0 := baseUrlFor g cfg.context
  if optFalsy baseUrl0 then
    (.error (configurationError cfg.context), [])
  else
    let b := baseUrl0.getD ""
    let baseUrl := if strEndsWith b "/" then b else b ++ "/"
    let url := baseUrl ++ cfg.path
    match http url with
    | .ok response => (.ok response.data, [url])
    | .error e => (.error (errorHandler e), [url])

mutual
/-- A field value of a resolvable item: a primitive leaf, a reference
marker (a Link, identified by its `linkType` and target `id`), an embedded
resolved item (`node`, produced by resolution), an ordered array of values,
or a locale-keyed mapping of values (multi-locale response mode). -/
inductive FieldValue where
  | prim (v : JsValue)
  | link (linkType : String) (id : String)
  | node (it : Item)
  | arr (xs : List FieldValue)
  | localeMap (entries : List (String × FieldValue))

/-- A resolvable item (entry or asset): its identity is the pair of its
entity kind (`sys.type`) and its `sys.id`, and it carries a `fields`
mapping from field names to field values. -/
inductive Item where
  | mk (kind : String) (id : String) (fields : List (String × FieldValue))
end

/-- The entity kind of an item. -/
def Item.kind : Item → String
  | .mk k _ _ => k

/-- The identifier of an item. -/
def Item.id : Item → String
  | .mk _ i _ => i

/-- The fields mapping of an item. -/
def Item.fields : Item → List (String × FieldValue)
  | .mk _ _ fs => fs

/-- The composite identity `(kind, id)` of reference markers and items. -/
abbrev LinkKey := String × String

/-- The identity key of an item. -/
def itemKey (it : Item) : LinkKey := (it.kind, it.id)

/-- A raw or resolved response payload: the primary `items` sequence, the
optional `includes` side-table (kind name to bucket of additional items) and
the pass-through top-level metadata members (pagination totals, sync token),
which resolution leaves untouched. -/
structure Payload where
  items : List Item
  includes : List (String × List Item)
  meta : List (String × JsValue)

/-- The options handed to the resolver by the API layer. -/
structure ResolveOptions where
  resolveLinks : Bool
  removeUnresolved : Bool

/-- First-match lookup in an association list keyed by `LinkKey`; used both
for the lookup index and for the resolved cache. -/
def lookupKey (table : List (LinkKey × Item)) (k : LinkKey) : Option Item :=
  match table with
  | [] => none
  | (k2, it) :: rest => if k2 = k then some it else lookupKey rest k

/-- Modelled from the spec: the single lookup index from `(kind, id)` to the
concrete item, merging `items` and every bucket of `includes`; `items`
entries come first so they take precedence on duplicate keys. -/
def buildIndex (p : Payload) : List (LinkKey × Item) :=
  p.items.map (fun it => (itemKey it, it)) ++
    (p.includes.map (fun bucket => bucket.2.map (fun it => (itemKey it, it)))).flatten

/-- The cache of fully resolved items, keyed by composite identity. -/
abbrev Cache := List (LinkKey × Item)

/-- The number of index entries whose key is not yet on the active path;
the termination measure of the resolver's traversal. -/
def unvisitedCount (idx : List (LinkKey × Item)) (visited : List LinkKey) : Nat :=
  (idx.filter (fun p => decide (p.1 ∉ visited))).length

/-- The traversal measure drops when a key that resolves in the index is
pushed on the active path; this is the termination argument of the
resolver's cycle guard, used by the `decreasing_by` proofs below. -/
def unvisitedCountLtOfLookup (idx : List (LinkKey × Item)) (visited : List LinkKey)
    (k : LinkKey) (it : Item) (hl : lookupKey idx k = some it) (hnv : k ∉ visited) :
    unvisitedCount idx (k :: visited) < unvisitedCount idx visited := by
  induction idx with
  | nil => simp [lookupKey] at hl
  | cons hd rest ih =>
    rcases hd with ⟨k2, it2⟩
    rw [lookupKey] at hl
    simp only [unvisitedCount, List.filter_cons]
    by_cases hk : k2 = k
    · subst hk
      have hlen : (rest.filter (fun p => decide (p.1 ∉ k2 :: visited))).length ≤
          (rest.filter (fun p => decide (p.1 ∉ visited))).length := by
        apply List.Sublist.length_le
        apply List.monotone_filter_right
        intro p hp
        simp only [decide_eq_true_eq] at hp ⊢
        intro hmem
        exact hp (List.mem_cons_of_mem _ hmem)
      have h1 : decide ((k2, it2).1 ∉ k2 :: visited) = false := by simp
      have h2 : decide ((k2, it2).1 ∉ visited) = true := by simpa using hnv
      rw [h1, h2]
      simpa using Nat.lt_succ_of_le hlen
    · rw [if_neg hk] at hl
      have step := ih hl
      simp only [unvisitedCount] at step
      by_cases hv2 : k2 ∈ visited
      · have h1 : decide ((k2, it2).1 ∉ k :: visited) = false := by simp [hv2]
        have h2 : decide ((k2, it2).1 ∉ visited) = false := by simp [hv2]
        rw [h1, h2]
        simpa using step
      · have h1 : decide ((k2, it2).1 ∉ k :: visited) = true := by simp [hv2, hk]
        have h2 : decide ((k2, it2).1 ∉ visited) = true := by simp [hv2]
        rw [h1, h2]
        simpa using step

mutual
/-- Modelled from the spec: resolve one field value. Primitives and already
resolved embedded items are untouched; arrays and locale maps are walked
element-wise; a reference marker is looked up in the index by `(kind, id)` —
if absent, the `removeUnresolved` policy applies (`none` models deletion of
the containing slot); if its target is already being expanded on the active
path, the marker short-circuits to the item as found in the index without
re-descending into its fields; if the target was already fully resolved, the
cached resolved object is reused (structural sharing); otherwise the
target's fields are walked with the target pushed on the active path, and
the resolved item is recorded in the cache. -/
def walkValue (idx : List (LinkKey × Item)) (ru : Bool) (visited : List LinkKey)
    (cache : Cache) (v : FieldValue) : Option FieldValue × Cache :=
  match v with
  | .prim w => (some (.prim w), cache)
  | .node it => (some (.node it), cache)
  | .arr xs =>
    let r := walkArray idx ru visited cache xs
    (some (.arr r.1), r.2)
  | .localeMap m =>
    let r := walkPairs idx ru visited cache m
    (some (.localeMap r.1), r.2)
  | .link linkType id =>
    match hl : lookupKey idx (linkType, id) with
    | none => (if ru then none else some (.link linkType id), cache)
    | some target =>
      if hv : (linkType, id) ∈ visited then (some (.node target), cache)
      else
        match lookupKey cache (linkType, id) with
        | some r => (some (.node r), cache)
        | none =>
          let rp := walkPairs idx ru ((linkType, id) :: visited) cache target.fields
          let resolved := Item.mk target.kind target.id rp.1
          (some (.node resolved), ((linkType, id), resolved) :: rp.2)
termination_by (unvisitedCount idx visited, sizeOf v)
decreasing_by
  · exact Prod.Lex.right _ (by simp)
  · exact Prod.Lex.right _ (by simp)
  · exact Prod.Lex.left _ _ (unvisitedCountLtOfLookup idx visited _ target hl hv)

/-- Modelled from the spec: walk an array of field values in order, dropping
the slots the unresolved-marker policy deletes, threading the resolved
cache left to right. -/
def walkArray (idx : List (LinkKey × Item)) (ru : Bool) (visited : List LinkKey)
    (cache : Cache) (xs : List FieldValue) : List FieldValue × Cache :=
  match xs with
  | [] => ([], cache)
  | x :: rest =>
    let r := walkValue idx ru visited cache x
    let rs := walkArray idx ru visited r.2 rest
    (match r.1 with
     | none => rs.1
     | some y => y :: rs.1, rs.2)
termination_by (unvisitedCount idx visited, sizeOf xs)
decreasing_by
  · exact Prod.Lex.right _ (by simp_arith)
  · exact Prod.Lex.right _ (by simp_arith)

/-- Modelled from the spec: walk a name-keyed mapping of field values (an
item's `fields` or a locale-keyed map), dropping the bindings the
unresolved-marker policy deletes, threading the resolved cache. -/
def walkPairs (idx : List (LinkKey × Item)) (ru : Bool) (visited : List LinkKey)
    (cache : Cache) (ps : List (String × FieldValue)) :
    List (String × FieldValue) × Cache :=
  match ps with
  | [] => ([], cache)
  | (name, x) :: rest =>
    let r := walkValue idx ru visited cache x
    let rs := walkPairs idx ru visited r.2 rest
    (match r.1 with
     | none => rs.1
     | some y => (name, y) :: rs.1, rs.2)
termination_by (unvisitedCount idx visited, sizeOf ps)
decreasing_by
  · exact Prod.Lex.right _ (by simp_arith)
  · exact Prod.Lex.right _ (by simp_arith)
end

/-- Modelled from the spec: resolve one top-level item — reuse the cached
resolved object when this identity was already fully walked, otherwise walk
its fields with the item itself opening the active path, and cache the
result. -/
def resolveTopItem (idx : List (LinkKey × Item)) (ru : Bool) (cache : Cache)
    (it : Item) : Item × Cache :=
  match lookupKey cache (itemKey it) with
  | some r => (r, cache)
  | none =>
    let rp := walkPairs idx ru [itemKey it] cache it.fields
    let resolved := Item.mk it.kind it.id rp.1
    (resolved, (itemKey it, resolved) :: rp.2)

/-- Modelled from the spec: resolve the top-level items in order, threading
the resolved cache. -/
def resolveItems (idx : List (LinkKey × Item)) (ru : Bool) :
    List Item → Cache → List Item × Cache
  | [], cache => ([], cache)
  | it :: rest, cache =>
    let r := resolveTopItem idx ru cache it
    let rs := resolveItems idx ru rest r.2
    (r.1 :: rs.1, rs.2)

/-- Modelled from the spec: the public resolver entry point
(`src/utils/resolve-circular`, not part of this snapshot). When
`resolveLinks` is false the payload is returned unchanged; otherwise the
lookup index is built from items and includes and every top-level item is
resolved, the includes table and pass-through metadata staying untouched. -/
def resolveCircular (data : Payload) (opts : ResolveOptions) : Payload :=
  if opts.resolveLinks then
    let idx := buildIndex data
    { data with items := (resolveItems idx opts.removeUnresolved data.items []).1 }
  else data

/-- The request record of `getEntries`: environment context, path
`entries`. -/
def entriesConfig : GetConfig := { context := .environment, path := "entries" }

/-- The request record of `getAssets`: environment context, path
`assets`. -/
def assetsConfig : GetConfig := { context := .environment, path := "assets" }

/-- The request record of `getAsset(id)`: environment context, path
`assets/<id>`. -/
def assetConfig (id : String) : GetConfig :=
  { context := .environment, path := "assets/" ++ id }

/-- The `getEntries` method: fetch the `entries` path, hand the body to
`resolveCircular` with the client's `resolveLinks` and `removeUnresolved`
options, and channel any error of the fetch through `errorHandler` (the
surrounding try/catch of the source). The transport is modelled as already
delivering the parsed collection shape. -/
def getEntries (g : GlobalOptions)
    (http : String → Except JsValue (HttpResponse Payload)) :
    Except JsValue Payload × List String :=
  let r := get Payload g http entriesConfig
  match r.1 with
  | .ok entries =>
    (.ok (resolveCircular entries
      { resolveLinks := g.resolveLinks, removeUnresolved := g.removeUnresolved }), r.2)
  | .error e => (.error (errorHandler e), r.2)

/-- The `parseEntries` method: hand raw data straight to `resolveCircular`
with the client's options; no transport involved. -/
def parseEntries (g : GlobalOptions) (data : Payload) : Payload :=
  resolveCircular data
    { resolveLinks := g.resolveLinks, removeUnresolved := g.removeUnresolved }

/-- The `getAssets` method: fetch the `assets` path and return the body
directly — no resolver call, no extra catch. -/
def getAssets (g : GlobalOptions)
    (http : String → Except JsValue (HttpResponse Payload)) :
    Except JsValue Payload × List String :=
  get Payload g http assetsConfig

/-- The `getAsset` method: fetch `assets/<id>` and return the body
directly — no resolver call, no extra catch. -/
def getAsset (g : GlobalOptions)
    (http : String → Except JsValue (HttpResponse JsValue)) (id : String) :
    Except JsValue JsValue × List String :=
  get JsValue g http (assetConfig id)

/-- The `getEntry` method: a falsy (empty) id throws `notFoundError(id)`
at once, before the entries query; otherwise the `sys.id = id` entries
query runs (`entriesFor` models `this.getEntries` keyed by the requested
id), a non-empty collection yields its first item, an empty one throws
`notFoundError(id)`, and everything thrown inside the try block passes
through `errorHandler`. The second component records which ids were
actually queried. -/
def getEntry (g : GlobalOptions) (entriesFor : String → Except JsValue Payload)
    (id : String) : Except JsValue Item × List String :=
  if id == "" then (.error (notFoundError g id), [])
  else
    match entriesFor id with
    | .ok response =>
      match response.items with
      | it :: _ => (.ok it, [id])
      | [] => (.error (errorHandler (notFoundError g id)), [id])
    | .error e => (.error (errorHandler e), [id])

/-- The mutable state shared through the transport instance: the only
member the client ever touches is `http.defaults.baseURL`. -/
structure HttpState where
  baseURL : Option String

/-- The `switchToEnvironment` helper: set `http.defaults.baseURL` to the
configured environment base URL. -/
def switchToEnvironment (g : GlobalOptions) (s : HttpState) : HttpState :=
  { s with baseURL := g.environmentBaseUrl }

/-- The aggregated result delivered by the sync pagination driver; opaque
for this development. -/
structure SyncResult where
  raw : JsValue

/-- The external collaborators one client closes over: the transports for
the typed and raw endpoints, the entries query used by `getEntry`, and the
sync pagination driver. `pagedSync` receives the transport state as it
stands when `sync` invokes it, which is how a state write by `sync` could
be observed. -/
structure Collaborators where
  httpEntries : String → Except JsValue (HttpResponse Payload)
  httpAssets : String → Except JsValue (HttpResponse Payload)
  httpRaw : String → Except JsValue (HttpResponse JsValue)
  entriesFor : String → Except JsValue Payload
  pagedSync : HttpState → JsValue → ResolveOptions → SyncResult

/-- One public API call together with its per-call arguments. -/
inductive ApiMethod where
  | getSpaceM
  | getContentTypeM (id : String)
  | getContentTypesM
  | getEntryM (id : String)
  | getEntriesM
  | getAssetM (id : String)
  | getAssetsM
  | getLocalesM
  | parseEntriesM (data : Payload)
  | syncM (query : JsValue)

/-- The observable outcome of one public API call. -/
inductive ApiResult where
  | raw (r : Except JsValue JsValue)
  | collection (r : Except JsValue Payload × List String)
  | entry (r : Except JsValue Item × List String)
  | parsed (p : Payload)
  | synced (r : SyncResult)

/-- One public API call as a transition on the shared transport state:
every method except `sync` leaves the state alone, `sync` runs
`switchToEnvironment` first and then hands the updated state to the
pagination driver. -/
def apiStep (g : GlobalOptions) (c : Collaborators) (m : ApiMethod)
    (s : HttpState) : ApiResult × HttpState :=
  match m with
  | .getSpaceM =>
    (.raw (get JsValue g c.httpRaw { context := .space, path := "" }).1, s)
  | .getContentTypeM id =>
    (.raw (get JsValue g c.httpRaw
      { context := .environment, path := "content_types/" ++ id }).1, s)
  | .getContentTypesM =>
    (.raw (get JsValue g c.httpRaw
      { context := .environment, path := "content_types" }).1, s)
  | .getEntryM id => (.entry (getEntry g c.entriesFor id), s)
  | .getEntriesM => (.collection (getEntries g c.httpEntries), s)
  | .getAssetM id => (.raw (getAsset g c.httpRaw id).1, s)
  | .getAssetsM => (.collection (getAssets g c.httpAssets), s)
  | .getLocalesM =>
    (.raw (get JsValue g c.httpRaw
      { context := .environment, path := "locales" }).1, s)
  | .parseEntriesM data => (.parsed (parseEntries g data), s)
  | .syncM query =>
    let s2 := switchToEnvironment g s
    (.synced (c.pagedSync s2 query
      { resolveLinks := g.resolveLinks, removeUnresolved := g.removeUnresolved }), s2)

/-- Run a sequence of public API calls on one client, threading the shared
transport state from call to call. -/
def runApi (g : GlobalOptions) (c : Collaborators) :
    List ApiMethod → HttpState → List ApiResult × HttpState
  | [], s => ([], s)
  | m :: ms, s =>
    let r := apiStep g c m s
    let rs := runApi g c ms r.2
    (r.1 :: rs.1, rs.2)

/-- A concrete configuration used to exercise the theorems below. -/
def demoOptions : GlobalOptions :=
  { resolveLinks := true, removeUnresolved := false, environment := "master",
    space := "spc", spaceBaseUrl := some "https://s.example/spc",
    environmentBaseUrl := some "https://cdn.example/spc/env" }

/-- The worked example of the spec: an entry whose `animal` field is a
marker for the `Animal` include `oink` (the Pig). -/
def demoPayload : Payload :=
  { items := [Item.mk "Entry" "e1" [("animal", .link "Animal" "oink")]],
    includes := [("Animal", [Item.mk "Animal" "oink" [("name", .prim (.str "Pig"))]])],
    meta := [] }

/-- `demoPayload` after resolution: the marker replaced by the Pig item. -/
def demoResolved : Payload :=
  { items := [Item.mk "Entry" "e1"
      [("animal", .node (Item.mk "Animal" "oink" [("name", .prim (.str "Pig"))]))]],
    includes := [("Animal", [Item.mk "Animal" "oink" [("name", .prim (.str "Pig"))]])],
    meta := [] }

/-- A configuration with link resolution turned off. -/
def noResolveOptions : GlobalOptions :=
  { demoOptions with resolveLinks := false }

/-- A configuration whose space base URL is missing and whose environment
base URL is empty: both contexts are unconfigured in the sense of the
`!baseUrl` check. -/
def missingUrlOptions : GlobalOptions :=
  { demoOptions with spaceBaseUrl := none, environmentBaseUrl := some "" }

/-- A transport stub returning a fixed payload body for every URL. -/
def constHttp (p : Payload) : String → Except JsValue (HttpResponse Payload) :=
  fun _ => .ok ⟨p⟩

/-- An entries collection with no items at all. -/
def emptyCollection : Payload := { items := [], includes := [], meta := [] }

/-- C1: with `resolveLinks = false` the resolver is skipped entirely:
`parseEntries` returns its raw payload unchanged and `getEntries` returns
the transport body unchanged — no field of any item is rewritten. -/
theorem resolveLinks_false_skips_resolver
    (g : GlobalOptions) (data : Payload)
    (http : String → Except JsValue (HttpResponse Payload))
    (body : Payload) (trace : List String)
    (hg : g.resolveLinks = false)
    (hok : get Payload g http entriesConfig = (.ok body, trace)) :
    parseEntries g data = data ∧ getEntries g http = (.ok body, trace) := by
  constructor
  · simp [parseEntries, resolveCircular, hg]
  · simp [getEntries, hok, resolveCircular, hg]

theorem resolveLinks_false_skips_resolver_witness :
    noResolveOptions.resolveLinks = false ∧
    (parseEntries noResolveOptions demoPayload = demoPayload ∧
      getEntries noResolveOptions (constHttp demoPayload) =
        (.ok demoPayload, ["https://cdn.example/spc/env/entries"])) :=
  ⟨rfl, resolveLinks_false_skips_resolver noResolveOptions demoPayload
    (constHttp demoPayload) demoPayload ["https://cdn.example/spc/env/entries"] rfl rfl⟩

/-- C2: when the `sys.id = id` entries query returns a collection with zero
items, `getEntry` fails with the structured NotFound error — whose `sys.id`
is `NotFound` and whose details carry the requested entity id and the
client's configured environment and space identifiers — and never resolves
with a value. -/
theorem getEntry_empty_collection_not_found
    (g : GlobalOptions) (entriesFor : String → Except JsValue Payload)
    (id : String) (resp : Payload)
    (hq : entriesFor id = .ok resp) (hempty : resp.items = []) :
    (getEntry g entriesFor id).1 = .error (notFoundError g id) ∧
    ((notFoundError g id).getField "sys").getField "id" = .str "NotFound" ∧
    ((notFoundError g id).getField "details").getField "id" = .str id ∧
    ((notFoundError g id).getField "details").getField "environment" =
      .str g.environment ∧
    ((notFoundError g id).getField "details").getField "space" = .str g.space := by
  have herr : errorHandler (notFoundError g id) = notFoundError g id := by
    simp [errorHandler, notFoundError, JsValue.getField, findField, JsValue.truthy]
  refine ⟨?_, ?_, ?_, ?_, ?_⟩
  · by_cases hid : id == ""
    · simp [getEntry, hid]
    · simp [getEntry, hid, hq, hempty, herr]
  all_goals simp [notFoundError, JsValue.getField, findField]

theorem getEntry_empty_collection_witness :
    (fun _ : String => (Except.ok emptyCollection : Except JsValue Payload)) "ghost" =
      .ok emptyCollection ∧
    emptyCollection.items = [] ∧
    (getEntry demoOptions (fun _ => .ok emptyCollection) "ghost").1 =
      .error (notFoundError demoOptions "ghost") :=
  ⟨rfl, rfl,
    (getEntry_empty_collection_not_found demoOptions (fun _ => .ok emptyCollection)
      "ghost" emptyCollection rfl rfl).1⟩

/-- C6: no API call's observable behaviour depends on the mutable state
shared through the transport instance: over any call sequence on one
client, every call's result is a function of its own arguments and the
immutable configuration alone. In particular the `http.defaults.baseURL`
write `sync` performs through `switchToEnvironment` is always the
configuration's environment base URL, so the state the pagination driver
reads never carries information from earlier calls. -/
theorem api_results_independent_of_shared_state
    (g : GlobalOptions) (c : Collaborators) (ms : List ApiMethod) (s : HttpState) :
    (runApi g c ms s).1 = ms.map (fun m => (apiStep g c m { baseURL := none }).1) := by
  induction ms generalizing s with
  | nil => rfl
  | cons m rest ih =>
    have hstep : (apiStep g c m s).1 = (apiStep g c m { baseURL := none }).1 := by
      cases m <;> rfl
    simp [runApi, hstep, ih]

/-- C7: when the configured base URL for the request's context is missing
(absent or the empty string), `get` fails with the configuration error and
its transport trace is empty — the transport collaborator is never
invoked. -/
theorem get_missing_baseUrl_throws_before_transport
    (A : Type) (g : GlobalOptions) (http : String → Except JsValue (HttpResponse A))
    (cfg : GetConfig) (hmiss : optFalsy (baseUrlFor g cfg.context) = true) :
    get A g http cfg = (.error (configurationError cfg.context), []) := by
  simp [get, hmiss]

theorem get_missing_baseUrl_witness :
    optFalsy (baseUrlFor missingUrlOptions UrlContext.space) = true ∧
    get JsValue missingUrlOptions (fun _ => .error .undefined)
      { context := .space, path := "" } =
      (.error (configurationError .space), []) :=
  ⟨rfl, get_missing_baseUrl_throws_before_transport JsValue missingUrlOptions
    (fun _ => .error .undefined) { context := .space, path := "" } rfl⟩

/-- C8: `errorHandler` always rethrows and never retries or suppresses: a
truthy `error.data` is thrown; failing that, when `error.response` and
`error.response.data` are truthy, `error.response.data` is thrown;
otherwise the error itself is thrown unchanged. -/
theorem errorHandler_unwraps_and_rethrows (e : JsValue) :
    ((e.getField "data").truthy = true → errorHandler e = e.getField "data") ∧
    ((e.getField "data").truthy = false →
      ((e.getField "response").truthy &&
        ((e.getField "response").getField "data").truthy) = true →
      errorHandler e = (e.getField "response").getField "data") ∧
    ((e.getField "data").truthy = false →
      ((e.getField "response").truthy &&
        ((e.getField "response").getField "data").truthy) = false →
      errorHandler e = e) := by
  refine ⟨fun h1 => ?_, fun h1 h2 => ?_, fun h1 h2 => ?_⟩
  · simp [errorHandler, h1]
  · simp [errorHandler, h1, h2]
  · simp [errorHandler, h1, h2]

theorem errorHandler_unwraps_witness :
    ((JsValue.obj [("data", .str "body")]).getField "data").truthy = true ∧
    errorHandler (JsValue.obj [("data", .str "body")]) =
      (JsValue.obj [("data", .str "body")]).getField "data" :=
  ⟨by decide,
    (errorHandler_unwraps_and_rethrows (JsValue.obj [("data", .str "body")])).1
      (by decide)⟩

/-- C9: a falsy (empty-string) id makes `getEntry` fail immediately with
the NotFound error whose details carry that very id, and the query trace is
empty — the transport is never contacted. -/
theorem getEntry_falsy_id_short_circuits
    (g : GlobalOptions) (entriesFor : String → Except JsValue Payload) :
    getEntry g entriesFor "" = (.error (notFoundError g ""), []) ∧
    ((notFoundError g "").getField "details").getField "id" = .str "" := by
  constructor
  · simp [getEntry]
  · simp [notFoundError, JsValue.getField, findField]

/-- C10: `getAssets` and `getAsset` return the parsed transport body as-is,
whatever the `resolveLinks` and `removeUnresolved` options are, while the
entries path does invoke the resolver — which, on the worked example, is
not the identity. -/
theorem assets_bypass_link_resolver
    (g g2 : GlobalOptions)
    (http : String → Except JsValue (HttpResponse Payload))
    (http2 : String → Except JsValue (HttpResponse JsValue))
    (body : Payload) (trace : List String)
    (id : String) (v : JsValue) (trace2 : List String)
    (hA : get Payload g http assetsConfig = (.ok body, trace))
    (hB : get JsValue g2 http2 (assetConfig id) = (.ok v, trace2)) :
    getAssets g http = (.ok body, trace) ∧
    getAsset g2 http2 id = (.ok v, trace2) ∧
    parseEntries demoOptions demoPayload ≠ demoPayload := by
  refine ⟨hA, hB, ?_⟩
  have hres : parseEntries demoOptions demoPayload = demoResolved := by
    simp [parseEntries, resolveCircular, buildIndex, resolveItems, resolveTopItem,
      walkPairs, walkValue, walkArray, lookupKey, itemKey, Item.kind, Item.id,
      Item.fields, demoPayload, demoOptions, demoResolved]
  rw [hres]
  intro hcontra
  simp [demoResolved, demoPayload] at hcontra

theorem assets_bypass_witness :
    get Payload demoOptions (constHttp demoPayload) assetsConfig =
      (.ok demoPayload, ["https://cdn.example/spc/env/assets"]) ∧
    getAssets demoOptions (constHttp demoPayload) =
      (.ok demoPayload, ["https://cdn.example/spc/env/assets"]) :=
  ⟨rfl,
    (assets_bypass_link_resolver demoOptions demoOptions (constHttp demoPayload)
      (fun _ => .ok ⟨.str "asset"⟩) demoPayload
      ["https://cdn.example/spc/env/assets"] "a1" (.str "asset")
      ["https://cdn.example/spc/env/assets/a1"] rfl rfl).1⟩

theorem walkValue_prim (idx : List (LinkKey × Item)) (ru : Bool)
    (visited : List LinkKey) (cache : Cache) (w : JsValue) :
    walkValue idx ru visited cache (.prim w) = (some (.prim w), cache) := by
  simp [walkValue]

theorem walkValue_node (idx : List (LinkKey × Item)) (ru : Bool)
    (visited : List LinkKey) (cache : Cache) (it : Item) :
    walkValue idx ru visited cache (.node it) = (some (.node it), cache) := by
  simp [walkValue]

theorem walkValue_arr (idx : List (LinkKey × Item)) (ru : Bool)
    (visited : List LinkKey) (cache : Cache) (xs : List FieldValue) :
    walkValue idx ru visited cache (.arr xs) =
      (some (.arr (walkArray idx ru visited cache xs).1),
       (walkArray idx ru visited cache xs).2) := by
  simp [walkValue]

theorem walkValue_localeMap (idx : List (LinkKey × Item)) (ru : Bool)
    (visited : List LinkKey) (cache : Cache) (m : List (String × FieldValue)) :
    walkValue idx ru visited cache (.localeMap m) =
      (some (.localeMap (walkPairs idx ru visited cache m).1),
       (walkPairs idx ru visited cache m).2) := by
  simp [walkValue]

theorem walkValue_link (idx : List (LinkKey × Item)) (ru : Bool)
    (visited : List LinkKey) (cache : Cache) (linkType id : String) :
    walkValue idx ru visited cache (.link linkType id) =
      match lookupKey idx (linkType, id) with
      | none => (if ru then none else some (.link linkType id), cache)
      | some target =>
        if (linkType, id) ∈ visited then (some (.node target), cache)
        else
          match lookupKey cache (linkType, id) with
          | some r => (some (.node r), cache)
          | none =>
            (some (.node (Item.mk target.kind target.id
               (walkPairs idx ru ((linkType, id) :: visited) cache target.fields).1)),
             ((linkType, id), Item.mk target.kind target.id
               (walkPairs idx ru ((linkType, id) :: visited) cache target.fields).1) ::
               (walkPairs idx ru ((linkType, id) :: visited) cache target.fields).2) := by
  rw [walkValue]
  split
  next hl => simp [hl]
  next target hl =>
    simp only [hl]
    by_cases hv : (linkType, id) ∈ visited <;> simp [hv]

/-- C3: resolving a reference cycle terminates and short-circuits the
back-reference: with item A's field linking to B and B's field linking back
to A, resolved A holds resolved B, and B's back-link holds A's original
(still-partially-resolved) item exactly as found in the lookup index — not
an infinite expansion. Termination itself holds by construction, the walk
being a total function whose recursion is bounded by the visited set of
`(kind, id)` pairs on the active path. -/
theorem cycle_resolution_short_circuits
    (aId bId f1 f2 : String) (meta : List (String × JsValue)) (ru : Bool)
    (hne : aId ≠ bId) :
    resolveCircular
      { items := [Item.mk "Entry" aId [(f1, .link "Entry" bId)]],
        includes := [("Entry", [Item.mk "Entry" bId [(f2, .link "Entry" aId)]])],
        meta := meta }
      { resolveLinks := true, removeUnresolved := ru } =
      { items := [Item.mk "Entry" aId
          [(f1, .node (Item.mk "Entry" bId
            [(f2, .node (Item.mk "Entry" aId [(f1, .link "Entry" bId)]))]))]],
        includes := [("Entry", [Item.mk "Entry" bId [(f2, .link "Entry" aId)]])],
        meta := meta } := by
  have hidx : buildIndex
      { items := [Item.mk "Entry" aId [(f1, .link "Entry" bId)]],
        includes := [("Entry", [Item.mk "Entry" bId [(f2, .link "Entry" aId)]])],
        meta := meta } =
      [(("Entry", aId), Item.mk "Entry" aId [(f1, .link "Entry" bId)]),
       (("Entry", bId), Item.mk "Entry" bId [(f2, .link "Entry" aId)])] := by
    simp [buildIndex, itemKey, Item.kind, Item.id]
  simp [resolveCircular, hidx, resolveItems, resolveTopItem, walkPairs,
    walkValue_link, lookupKey, itemKey, Item.kind, Item.id, Item.fields, hne,
    Ne.symm hne]

theorem cycle_resolution_witness :
    "a" ≠ "b" ∧
    resolveCircular
      { items := [Item.mk "Entry" "a" [("friend", .link "Entry" "b")]],
        includes := [("Entry", [Item.mk "Entry" "b" [("friend", .link "Entry" "a")]])],
        meta := [] }
      { resolveLinks := true, removeUnresolved := true } =
      { items := [Item.mk "Entry" "a"
          [("friend", .node (Item.mk "Entry" "b"
            [("friend", .node (Item.mk "Entry" "a" [("friend", .link "Entry" "b")]))]))]],
        includes := [("Entry", [Item.mk "Entry" "b" [("friend", .link "Entry" "a")]])],
        meta := [] } :=
  ⟨by decide, cycle_resolution_short_circuits "a" "b" "friend" "friend" [] true
    (by decide)⟩

/-- C4: a marker whose `(kind, id)` matches nothing in items or includes
never makes the resolver fail: with `removeUnresolved = true` the
containing direct field, array slot and locale-map slot are absent after
resolution; with `removeUnresolved = false` the original marker is
preserved verbatim in every position. -/
theorem unresolved_marker_policy
    (K I kind id f1 f2 f3 loc : String) (w : JsValue) (ru : Bool)
    (includes : List (String × List Item)) (meta : List (String × JsValue))
    (hmiss : lookupKey (buildIndex
      { items := [Item.mk K I [(f1, .link kind id),
                               (f2, .arr [.link kind id, .prim w]),
                               (f3, .localeMap [(loc, .link kind id)])]],
        includes := includes, meta := meta }) (kind, id) = none) :
    resolveCircular
      { items := [Item.mk K I [(f1, .link kind id),
                               (f2, .arr [.link kind id, .prim w]),
                               (f3, .localeMap [(loc, .link kind id)])]],
        includes := includes, meta := meta }
      { resolveLinks := true, removeUnresolved := ru } =
      { items := [Item.mk K I
          (if ru then [(f2, .arr [.prim w]), (f3, .localeMap [])]
           else [(f1, .link kind id), (f2, .arr [.link kind id, .prim w]),
                 (f3, .localeMap [(loc, .link kind id)])])],
        includes := includes, meta := meta } := by
  have hcons : buildIndex
      { items := [Item.mk K I [(f1, .link kind id),
                               (f2, .arr [.link kind id, .prim w]),
                               (f3, .localeMap [(loc, .link kind id)])]],
        includes := includes, meta := meta } =
      ((K, I), Item.mk K I [(f1, .link kind id),
                            (f2, .arr [.link kind id, .prim w]),
                            (f3, .localeMap [(loc, .link kind id)])]) ::
        (includes.map (fun bucket => bucket.2.map (fun it => (itemKey it, it)))).flatten := by
    simp [buildIndex, itemKey, Item.kind, Item.id]
  rw [hcons, lookupKey] at hmiss
  by_cases hKI : ((K, I) : LinkKey) = (kind, id)
  · rw [if_pos hKI] at hmiss
    exact absurd hmiss (by simp)
  · rw [if_neg hKI] at hmiss
    have hKI1 : ¬(K = kind ∧ I = id) := by simpa using hKI
    have hKI2 : ¬(kind = K ∧ id = I) := fun h => hKI1 ⟨h.1.symm, h.2.symm⟩
    simp only [itemKey, Item.kind, Item.id] at hmiss
    cases ru <;>
      simp [resolveCircular, hcons, resolveItems, resolveTopItem, walkPairs,
        walkArray, walkValue_link, walkValue_prim, walkValue_arr,
        walkValue_localeMap, lookupKey, itemKey, Item.kind, Item.id, Item.fields,
        hmiss, hKI1, hKI2]

theorem unresolved_marker_witness :
    lookupKey (buildIndex
      { items := [Item.mk "Entry" "e1" [("pet", .link "Animal" "nope"),
                                        ("pets", .arr [.link "Animal" "nope", .prim (.str "x")]),
                                        ("local", .localeMap [("en-US", .link "Animal" "nope")])]],
        includes := [("Animal", [Item.mk "Animal" "oink" []])], meta := [] })
      ("Animal", "nope") = none ∧
    resolveCircular
      { items := [Item.mk "Entry" "e1" [("pet", .link "Animal" "nope"),
                                        ("pets", .arr [.link "Animal" "nope", .prim (.str "x")]),
                                        ("local", .localeMap [("en-US", .link "Animal" "nope")])]],
        includes := [("Animal", [Item.mk "Animal" "oink" []])], meta := [] }
      { resolveLinks := true, removeUnresolved := true } =
      { items := [Item.mk "Entry" "e1"
          [("pets", .arr [.prim (.str "x")]), ("local", .localeMap [])]],
        includes := [("Animal", [Item.mk "Animal" "oink" []])], meta := [] } := by
  refine ⟨rfl, ?_⟩
  have h := unresolved_marker_policy "Entry" "e1" "Animal" "nope" "pet" "pets" "local"
    "en-US" (.str "x") true [("Animal", [Item.mk "Animal" "oink" []])] [] rfl
  simpa using h

/-- C5: a marker whose `(kind, id)` is present in the lookup graph resolves
to the resolved target item itself, and two distinct markers for the same
`(kind, id)` yield one shared resolved object: the second occurrence reuses
the cached instance the first produced, rather than a fresh expansion. -/
theorem matched_markers_share_resolved_instance
    (K I kind id f1 f2 : String) (tfields : List (String × FieldValue))
    (includesKind : String) (meta : List (String × JsValue)) (ru : Bool)
    (hne : (kind, id) ≠ (K, I)) :
    ∃ R : Item,
      resolveCircular
        { items := [Item.mk K I [(f1, .link kind id), (f2, .link kind id)]],
          includes := [(includesKind, [Item.mk kind id tfields])], meta := meta }
        { resolveLinks := true, removeUnresolved := ru } =
      { items := [Item.mk K I [(f1, .node R), (f2, .node R)]],
        includes := [(includesKind, [Item.mk kind id tfields])], meta := meta } ∧
      R.kind = kind ∧ R.id = id := by
  have hidx : buildIndex
      { items := [Item.mk K I [(f1, .link kind id), (f2, .link kind id)]],
        includes := [(includesKind, [Item.mk kind id tfields])], meta := meta } =
      [((K, I), Item.mk K I [(f1, .link kind id), (f2, .link kind id)]),
       ((kind, id), Item.mk kind id tfields)] := by
    simp [buildIndex, itemKey, Item.kind, Item.id]
  refine ⟨Item.mk kind id (walkPairs
      [((K, I), Item.mk K I [(f1, .link kind id), (f2, .link kind id)]),
       ((kind, id), Item.mk kind id tfields)] ru [(kind, id), (K, I)] [] tfields).1,
    ?_, rfl, rfl⟩
  simp [resolveCircular, hidx, resolveItems, resolveTopItem, walkPairs,
    walkValue_link, lookupKey, itemKey, Item.kind, Item.id, Item.fields, hne,
    Ne.symm hne]

theorem matched_markers_share_witness :
    (("Animal", "oink") : LinkKey) ≠ ("Entry", "e1") ∧
    (∃ R : Item,
      resolveCircular
        { items := [Item.mk "Entry" "e1"
            [("pet", .link "Animal" "oink"), ("pal", .link "Animal" "oink")]],
          includes := [("Animal", [Item.mk "Animal" "oink" [("name", .prim (.str "Pig"))]])],
          meta := [] }
        { resolveLinks := true, removeUnresolved := false } =
      { items := [Item.mk "Entry" "e1" [("pet", .node R), ("pal", .node R)]],
        includes := [("Animal", [Item.mk "Animal" "oink" [("name", .prim (.str "Pig"))]])],
        meta := [] } ∧
      R.kind = "Animal" ∧ R.id = "oink") :=
  ⟨by decide,
    matched_markers_share_resolved_instance "Entry" "e1" "Animal" "oink" "pet" "pal"
      [("name", .prim (.str "Pig"))] "Animal" [] false (by decide)⟩

end Contentful
